import Mathlib

/-!
Shallow embedding of the resumable Telegram export pipeline
(`src/file_manager.py`, `src/telegram_exporter.py`).

Modelling conventions:
* The per-session on-disk file set is a `FS` record; a missing file is `none`.
* A JSON file whose content may fail to parse is an `Option` of a sum
  (`PFile`, `JFile`, `NFile`) so that both "absent" and "malformed" states
  are representable.
* Python exceptions that escape a function are modelled with `Except Unit`.
* A CSV file is modelled as the list of its logical rows, each row the list
  of its cell strings (the csv module's quoting is a bijective encoding of
  that row list, so row-level equality is file-level equality).
* Python dicts used as open records (the nickname-match records) are
  association lists with Python's insertion-order update semantics
  (`pyGet` / `pySet` / `pyUpdate`).
* Network fetches are parameters (the fetched list, or a fallible
  per-chat source function); performed fetches are recorded in a trace.
-/

namespace TgExport

/-- Primitive value stored in a dynamic record field. -/
inductive Value where
  | vStr (s : String)
  | vInt (n : Int)
  | vBool (b : Bool)
deriving DecidableEq, Repr

/-- How Python's csv writer renders a cell value (`str(value)`). -/
def Value.toCsvCell : Value → String
  | .vStr s => s
  | .vInt n => toString n
  | .vBool b => if b then "True" else "False"

/-- Python `d.get(k)` on an association-list dict: first binding of `k`. -/
def pyGet {α : Type} (m : List (String × α)) (k : String) : Option α :=
  match m with
  | [] => none
  | p :: t => if p.1 = k then some p.2 else pyGet t k

/-- Python `k in d`. -/
def pyHasKey {α : Type} (m : List (String × α)) (k : String) : Bool :=
  match m with
  | [] => false
  | p :: t => if p.1 = k then true else pyHasKey t k

/-- Python `d[k] = v` on an association-list dict: replace the binding in
place when the key is present, otherwise append it. -/
def pySet {α : Type} (m : List (String × α)) (k : String) (v : α) :
    List (String × α) :=
  if pyHasKey m k then
    m.map (fun p => if p.1 = k then (k, v) else p)
  else m ++ [(k, v)]

/-- Python `d.update(kvs)`: set each key-value pair in order. -/
def pyUpdate {α : Type} (m : List (String × α)) (kvs : List (String × α)) :
    List (String × α) :=
  kvs.foldl (fun acc p => pySet acc p.1 p.2) m

/-- One contact record as produced by `get_contacts` and written by
`save_contacts_to_files` (fixed schema, absent remote fields already
normalised to `""` / `False` by the client wrapper). -/
structure ContactRec where
  id : Int
  first_name : String
  last_name : String
  username : String
  phone : String
  is_bot : Bool
  is_contact : Bool
deriving DecidableEq, Repr

/-- One dialog record as produced by `get_chats`. -/
structure DialogRec where
  id : Int
  first_name : String
  last_name : String
  username : String
  phone : String
  is_contact : Bool
  last_message_date : String
  unread_count : Int
deriving DecidableEq, Repr

/-- One chat-member record as produced by `get_chat_members_for_chat`. -/
structure MemberRec where
  chat_id : Int
  chat_title : String
  chat_type : String
  user_id : Int
  first_name : String
  last_name : String
  username : String
  phone : String
  is_bot : Bool
  is_premium : Bool
  is_verified : Bool
deriving DecidableEq, Repr

/-- A nickname-match record (`contact_info` / `dialog_info` / `member_info`
dicts built by the `_check_*` scans): an open Python dict. -/
abbrev MatchRec := List (String × Value)

/-- One entry of the progress document (`save_progress` writes exactly this
shape for every kind). -/
structure ProgressEntry where
  timestamp : String
  completed : Nat
  total : Nat
  finished : Bool
  processed_items : List Int
deriving DecidableEq, Repr

/-- The progress document: one entry per export kind. -/
abbrev ProgressMap := List (String × ProgressEntry)

/-- Content of the persisted progress file: either malformed JSON or a
parsed progress map. -/
inductive PFile where
  | malformed
  | parsed (m : ProgressMap)
deriving DecidableEq, Repr

/-- Content of a structured (JSON array) dataset file. -/
inductive JFile (α : Type) where
  | malformed
  | parsed (records : List α)
deriving DecidableEq, Repr

/-- Content of the nicknames input file: unreadable, or its lines. -/
inductive NFile where
  | unreadable
  | lines (ls : List String)
deriving DecidableEq, Repr

/-- The session-scoped file set (plus the global nicknames file). `none`
means the file does not exist. -/
structure FS where
  progressFile : Option PFile
  contactsCsv : Option (List (List String))
  contactsJson : Option (JFile ContactRec)
  chatsCsv : Option (List (List String))
  dialogsJson : Option (JFile DialogRec)
  membersCsv : Option (List (List String))
  membersJson : Option (JFile MemberRec)
  matchesCsv : Option (List (List String))
  matchesJson : Option (List MatchRec)
  nicknamesFile : Option NFile
deriving DecidableEq, Repr

/-- A file system with no files at all. -/
def emptyFS : FS :=
  ⟨none, none, none, none, none, none, none, none, none, none⟩

/-- FileManager.load_progress: `{}` when no session is set or the file does
not exist; otherwise `json.load`, which raises on malformed content. -/
def load_progress (session : Option String) (fs : FS) :
    Except Unit ProgressMap :=
  match session with
  | none => .ok []
  | some _ =>
    match fs.progressFile with
    | none => .ok []
    | some .malformed => .error ()
    | some (.parsed m) => .ok m

/-- The `data` dict passed to `save_progress` (callers omit some keys;
`data.get(key, default)` supplies the defaults). -/
structure ProgressData where
  completed : Option Nat
  total : Option Nat
  finished : Option Bool
  processed_items : Option (List Int)
deriving DecidableEq, Repr

/-- The entry `save_progress` builds from its `data` argument. -/
def mkEntry (now : String) (data : ProgressData) : ProgressEntry :=
  { timestamp := now
    completed := data.completed.getD 0
    total := data.total.getD 0
    finished := data.finished.getD false
    processed_items := data.processed_items.getD [] }

/-- FileManager.save_progress: raises without a session; otherwise
read-modify-write of the whole progress map (the read can raise). -/
def save_progress (session : Option String) (fs : FS) (export_type : String)
    (data : ProgressData) (now : String) : Except Unit FS :=
  match session with
  | none => .error ()
  | some s =>
    match load_progress (some s) fs with
    | .error e => .error e
    | .ok current =>
      .ok { fs with
              progressFile :=
                some (.parsed (pySet current export_type (mkEntry now data))) }

/-- Column schema of the contacts CSV. -/
def contactFieldnames : List String :=
  ["id", "first_name", "last_name", "username", "phone", "is_bot",
   "is_contact"]

/-- The CSV row DictWriter produces for one contact. -/
def contactCsvRow (c : ContactRec) : List String :=
  [toString c.id, c.first_name, c.last_name, c.username, c.phone,
   Value.toCsvCell (.vBool c.is_bot), Value.toCsvCell (.vBool c.is_contact)]

/-- FileManager.save_contacts_to_files: truncate-and-write both files. -/
def save_contacts_to_files (session : Option String) (fs : FS)
    (contacts : List ContactRec) : Except Unit (FS × Nat) :=
  match session with
  | none => .error ()
  | some _ =>
    .ok ({ fs with
             contactsCsv := some (contactFieldnames :: contacts.map contactCsvRow)
             contactsJson := some (.parsed contacts) },
         contacts.length)

/-- Column schema of the chats CSV. -/
def chatFieldnames : List String :=
  ["id", "first_name", "last_name", "username", "phone", "is_contact",
   "last_message_date", "unread_count"]

/-- The CSV row DictWriter produces for one dialog. -/
def chatCsvRow (d : DialogRec) : List String :=
  [toString d.id, d.first_name, d.last_name, d.username, d.phone,
   Value.toCsvCell (.vBool d.is_contact), d.last_message_date,
   toString d.unread_count]

/-- FileManager.save_chats_to_files: truncate-and-write both files. -/
def save_chats_to_files (session : Option String) (fs : FS)
    (chats : List DialogRec) : Except Unit (FS × Nat) :=
  match session with
  | none => .error ()
  | some _ =>
    .ok ({ fs with
             chatsCsv := some (chatFieldnames :: chats.map chatCsvRow)
             dialogsJson := some (.parsed chats) },
         chats.length)

/-- Column schema of the chat-members CSV. -/
def memberFieldnames : List String :=
  ["chat_id", "chat_title", "chat_type", "user_id", "first_name",
   "last_name", "username", "phone", "is_bot", "is_premium", "is_verified"]

/-- The CSV row DictWriter produces for one chat member. -/
def memberCsvRow (m : MemberRec) : List String :=
  [toString m.chat_id, m.chat_title, m.chat_type, toString m.user_id,
   m.first_name, m.last_name, m.username, m.phone,
   Value.toCsvCell (.vBool m.is_bot), Value.toCsvCell (.vBool m.is_premium),
   Value.toCsvCell (.vBool m.is_verified)]

/-- FileManager.save_chat_members_to_files: early return 0 on an empty
list; CSV appends without a header exactly when append was requested and
the CSV file exists; the JSON file is reread (malformed tolerated as
empty), concatenated and rewritten. -/
def save_chat_members_to_files (session : Option String) (fs : FS)
    (members : List MemberRec) (append : Bool) : Except Unit (FS × Nat) :=
  if members.isEmpty then .ok (fs, 0)
  else
    match session with
    | none => .error ()
    | some _ =>
      let csvExists := fs.membersCsv.isSome
      let newRows := members.map memberCsvRow
      let csvContent :=
        if append && csvExists then fs.membersCsv.getD [] ++ newRows
        else memberFieldnames :: newRows
      let existing : List MemberRec :=
        if append then
          match fs.membersJson with
          | some (.parsed l) => l
          | some .malformed => []
          | none => []
        else []
      let allMembers := if append then existing ++ members else members
      .ok ({ fs with
               membersCsv := some csvContent
               membersJson := some (.parsed allMembers) },
           members.length)

/-- FileManager.load_nicknames_list: the set of lower-cased stripped
non-blank lines; empty when the file is absent or unreadable. Membership
in the Python set equals membership in this list. -/
def load_nicknames_list (fs : FS) : List String :=
  match fs.nicknamesFile with
  | none => []
  | some .unreadable => []
  | some (.lines ls) =>
    (ls.filter (fun l => !(l.trim == ""))).map (fun l => l.trim.toLower)

/-- The `contact_info` dict `_check_contacts` builds for a matched contact. -/
def contactMatchRec (c : ContactRec) : MatchRec :=
  [("source", .vStr "contacts"),
   ("found_in_chat", .vStr "Контакты"),
   ("chat_id", .vStr ""),
   ("id", .vInt c.id),
   ("first_name", .vStr c.first_name),
   ("last_name", .vStr c.last_name),
   ("username", .vStr c.username),
   ("phone", .vStr c.phone),
   ("is_bot", .vBool c.is_bot),
   ("matched_nick", .vStr c.username.toLower)]

/-- The `dialog_info` dict `_check_chats` builds for a matched dialog. -/
def dialogMatchRec (d : DialogRec) : MatchRec :=
  [("source", .vStr "chats"),
   ("found_in_chat", .vStr "Личные сообщения"),
   ("chat_id", .vInt d.id),
   ("id", .vInt d.id),
   ("first_name", .vStr d.first_name),
   ("last_name", .vStr d.last_name),
   ("username", .vStr d.username),
   ("phone", .vStr d.phone),
   ("is_contact", .vBool d.is_contact),
   ("last_message_date", .vStr d.last_message_date),
   ("unread_count", .vInt d.unread_count),
   ("matched_nick", .vStr d.username.toLower)]

/-- The `member_info` dict `_check_chat_members` builds for a matched member. -/
def memberMatchRec (m : MemberRec) : MatchRec :=
  [("source", .vStr "chat_members"),
   ("found_in_chat", .vStr (m.chat_title ++ " (" ++ m.chat_type ++ ")")),
   ("chat_id", .vInt m.chat_id),
   ("id", .vInt m.user_id),
   ("first_name", .vStr m.first_name),
   ("last_name", .vStr m.last_name),
   ("username", .vStr m.username),
   ("phone", .vStr m.phone),
   ("is_bot", .vBool m.is_bot),
   ("is_premium", .vBool m.is_premium),
   ("is_verified", .vBool m.is_verified),
   ("matched_nick", .vStr m.username.toLower)]

/-- The scan loop of `_check_contacts`: a match is emitted when the
username is truthy (non-empty) and its lower-cased form is in the set. -/
def scanContacts (nset : List String) : List ContactRec → List MatchRec
  | [] => []
  | c :: rest =>
    if c.username ≠ "" ∧ c.username.toLower ∈ nset then
      contactMatchRec c :: scanContacts nset rest
    else scanContacts nset rest

/-- The scan loop of `_check_chats`. -/
def scanDialogs (nset : List String) : List DialogRec → List MatchRec
  | [] => []
  | d :: rest =>
    if d.username ≠ "" ∧ d.username.toLower ∈ nset then
      dialogMatchRec d :: scanDialogs nset rest
    else scanDialogs nset rest

/-- The scan loop of `_check_chat_members`. -/
def scanMembers (nset : List String) : List MemberRec → List MatchRec
  | [] => []
  | m :: rest =>
    if m.username ≠ "" ∧ m.username.toLower ∈ nset then
      memberMatchRec m :: scanMembers nset rest
    else scanMembers nset rest

/-- FileManager._check_contacts: fails soft to the matches found so far
(here `[]`) when the session is unset, the file is absent or unparseable. -/
def check_contacts (session : Option String) (fs : FS)
    (nset : List String) : List MatchRec :=
  match session with
  | none => []
  | some _ =>
    match fs.contactsJson with
    | none => []
    | some .malformed => []
    | some (.parsed contacts) => scanContacts nset contacts

/-- FileManager._check_chats. -/
def check_chats (session : Option String) (fs : FS)
    (nset : List String) : List MatchRec :=
  match session with
  | none => []
  | some _ =>
    match fs.dialogsJson with
    | none => []
    | some .malformed => []
    | some (.parsed dialogs) => scanDialogs nset dialogs

/-- FileManager._check_chat_members. -/
def check_chat_members (session : Option String) (fs : FS)
    (nset : List String) : List MatchRec :=
  match session with
  | none => []
  | some _ =>
    match fs.membersJson with
    | none => []
    | some .malformed => []
    | some (.parsed members) => scanMembers nset members

/-- Column schema of the matches CSV. -/
def matchFieldnames : List String :=
  ["source", "found_in_chat", "chat_id", "id", "first_name", "last_name",
   "username", "phone", "is_bot", "is_contact", "is_premium", "is_verified",
   "last_message_date", "unread_count", "matched_nick"]

/-- The per-source `contact.update(...)` performed by `_save_matches`
before writing each row; `none` models the KeyError Python raises when a
record has no `source` key (never the case for records the scans build). -/
def applySourceDefaults (r : MatchRec) : Option MatchRec :=
  match pyGet r "source" with
  | none => none
  | some v =>
    if v == .vStr "contacts" then
      some (pyUpdate r
        [("last_message_date", .vStr ""), ("unread_count", .vInt 0),
         ("is_premium", .vBool false), ("is_verified", .vBool false),
         ("is_contact", .vBool true)])
    else if v == .vStr "chats" then
      some (pyUpdate r
        [("is_premium", .vBool false), ("is_verified", .vBool false)])
    else if v == .vStr "chat_members" then
      some (pyUpdate r
        [("is_contact", .vBool false), ("last_message_date", .vStr ""),
         ("unread_count", .vInt 0)])
    else some r

/-- The CSV row DictWriter produces for a match dict: one cell per schema
column, `""` (the restval) for a missing key. -/
def matchCsvRow (r : MatchRec) : List String :=
  matchFieldnames.map (fun f =>
    match pyGet r f with
    | some v => v.toCsvCell
    | none => "")

/-- Apply a per-record fallible transformation to every record, failing as
a whole when any record fails (the loop's KeyError propagating). -/
def mapOrNone {α β : Type} (f : α → Option β) : List α → Option (List β)
  | [] => some []
  | a :: t =>
    match f a with
    | none => none
    | some b =>
      match mapOrNone f t with
      | none => none
      | some bs => some (b :: bs)

/-- FileManager._save_matches: the update loop mutates the match dicts
while writing CSV rows, and the JSON dump afterwards sees the mutated
dicts, so both files hold the defaulted records. -/
def save_matches (session : Option String) (fs : FS)
    (matched : List MatchRec) : Except Unit FS :=
  match session with
  | none => .error ()
  | some _ =>
    match mapOrNone applySourceDefaults matched with
    | none => .error ()
    | some updated =>
      .ok { fs with
              matchesCsv := some (matchFieldnames :: updated.map matchCsvRow)
              matchesJson := some updated }

/-- FileManager.cross_reference_nicknames: 0 straight away on an empty
target set; scans the three datasets in order; writes the matches files
only when at least one match was found. -/
def cross_reference_nicknames (session : Option String) (fs : FS) :
    Except Unit (FS × Nat) :=
  let nset := load_nicknames_list fs
  if nset.isEmpty then .ok (fs, 0)
  else
    let matched :=
      check_contacts session fs nset ++ check_chats session fs nset ++
        check_chat_members session fs nset
    if matched.isEmpty then .ok (fs, 0)
    else
      match save_matches session fs matched with
      | .error e => .error e
      | .ok fs1 => .ok (fs1, matched.length)

/-- A network fetch the pipeline performed, recorded for reasoning about
which remote calls a run makes. -/
inductive Event where
  | fetchContacts
  | fetchChats
  | fetchGroupChats
  | fetchMembers (chat_id : Int)
deriving DecidableEq, Repr

/-- Outcome of one pipeline run: the file system afterwards, the returned
count, and the fetches performed. -/
structure RunResult where
  fs : FS
  count : Nat
  trace : List Event
deriving DecidableEq, Repr

/-- The body of the contacts/chats export loop, indexed like Python's
`enumerate(items, completed)`: every 10th absolute position checkpoints
intermediate progress. The buffered list is exactly the iterated list, so
only the checkpoint writes are threaded here. -/
def checkpointLoop (session : Option String) (kind : String) (total : Nat)
    (now : String) : List Unit → Nat → FS → Except Unit FS
  | [], _, fs => .ok fs
  | _ :: rest, i, fs =>
    if (i + 1) % 10 == 0 then
      match save_progress session fs kind
          ⟨some (i + 1), some total, some false, none⟩ now with
      | .error e => .error e
      | .ok fs1 => checkpointLoop session kind total now rest (i + 1) fs1
    else checkpointLoop session kind total now rest (i + 1) fs

/-- TelegramExporter.export_contacts: fetches the full contact list first,
unconditionally; on resume with a stored `contacts` entry, slices off the
first `completed` items; buffers the remainder with periodic checkpoints;
then full-replace writes the buffer and marks progress finished. -/
def export_contacts (session : Option String) (fetched : List ContactRec)
    (fs : FS) (resume : Bool) (now : String) : Except Unit RunResult :=
  let total := fetched.length
  let completedE : Except Unit Nat :=
    if resume then
      match load_progress session fs with
      | .error e => .error e
      | .ok m =>
        match pyGet m "contacts" with
        | some entry => .ok entry.completed
        | none => .ok 0
    else .ok 0
  match completedE with
  | .error e => .error e
  | .ok completed =>
    let tail := fetched.drop completed
    match checkpointLoop session "contacts" total now
        (tail.map (fun _ => ())) completed fs with
    | .error e => .error e
    | .ok fs1 =>
      match save_contacts_to_files session fs1 tail with
      | .error e => .error e
      | .ok (fs2, _) =>
        match save_progress session fs2 "contacts"
            ⟨some total, some total, some true, none⟩ now with
        | .error e => .error e
        | .ok fs3 => .ok ⟨fs3, total, [Event.fetchContacts]⟩

/-- TelegramExporter.export_chats: same shape as `export_contacts` over
the dialog list. -/
def export_chats (session : Option String) (fetched : List DialogRec)
    (fs : FS) (resume : Bool) (now : String) : Except Unit RunResult :=
  let total := fetched.length
  let completedE : Except Unit Nat :=
    if resume then
      match load_progress session fs with
      | .error e => .error e
      | .ok m =>
        match pyGet m "chats" with
        | some entry => .ok entry.completed
        | none => .ok 0
    else .ok 0
  match completedE with
  | .error e => .error e
  | .ok completed =>
    let tail := fetched.drop completed
    match checkpointLoop session "chats" total now
        (tail.map (fun _ => ())) completed fs with
    | .error e => .error e
    | .ok fs1 =>
      match save_chats_to_files session fs1 tail with
      | .error e => .error e
      | .ok (fs2, _) =>
        match save_progress session fs2 "chats"
            ⟨some total, some total, some true, none⟩ now with
        | .error e => .error e
        | .ok fs3 => .ok ⟨fs3, total, [Event.fetchChats]⟩

/-- One entry of the group-chat list returned by `get_all_group_chats`
(the opaque `entity` / `dialog` handles live in the member source). -/
structure ChatInfo where
  chat_id : Int
  chat_title : String
  chat_type : String
deriving DecidableEq, Repr

/-- Mutable state of the chat-members loop. -/
structure MembersLoopSt where
  processed : List Int
  completed : Nat
  total_members : Nat
  fs : FS
  trace : List Event
deriving DecidableEq, Repr

/-- One iteration of the chat-members loop: skip already-processed chats;
a raising member fetch (or any exception inside the try) is caught and the
chat is marked processed anyway; members are append-written immediately
and progress saved after every chat. An exception from the progress save
is caught by the same handler, which marks the chat processed a second
time — faithful to the source, though unreachable with a set session and a
parseable progress file. -/
def memberChatStep (session : Option String)
    (source : ChatInfo → Except Unit (List MemberRec)) (total_chats : Nat)
    (now : String) (st : MembersLoopSt) (chat : ChatInfo) : MembersLoopSt :=
  if st.processed.contains chat.chat_id then st
  else
    let st0 := { st with trace := st.trace ++ [Event.fetchMembers chat.chat_id] }
    match source chat with
    | .error _ =>
      { st0 with processed := st0.processed ++ [chat.chat_id]
                 completed := st0.completed + 1 }
    | .ok chat_members =>
      let saveRes :=
        if chat_members.isEmpty then Except.ok (st0.fs, 0)
        else
          save_chat_members_to_files session st0.fs chat_members
            (decide (0 < st0.completed) || decide (0 < st0.processed.length))
      match saveRes with
      | .error _ =>
        { st0 with processed := st0.processed ++ [chat.chat_id]
                   completed := st0.completed + 1 }
      | .ok (fs1, _) =>
        let st1 :=
          { st0 with fs := fs1
                     total_members := st0.total_members + chat_members.length
                     processed := st0.processed ++ [chat.chat_id]
                     completed := st0.completed + 1 }
        match save_progress session st1.fs "chat_members"
            ⟨some st1.completed, some total_chats,
             some (decide (total_chats ≤ st1.completed)),
             some st1.processed⟩ now with
        | .error _ =>
          { st1 with processed := st1.processed ++ [chat.chat_id]
                     completed := st1.completed + 1 }
        | .ok fs2 => { st1 with fs := fs2 }

/-- TelegramExporter.export_chat_members: fetches the chat list first;
returns 0 outright when it is empty; on resume reads stored per-chat
progress, otherwise clears the member output files; folds the per-chat
step over the list; always writes a final `finished=true` progress entry. -/
def export_chat_members (session : Option String) (allChats : List ChatInfo)
    (source : ChatInfo → Except Unit (List MemberRec)) (fs : FS)
    (resume : Bool) (now : String) : Except Unit RunResult :=
  let tr0 : List Event := [Event.fetchGroupChats]
  let total_chats := allChats.length
  if total_chats == 0 then .ok ⟨fs, 0, tr0⟩
  else
    let initE : Except Unit (List Int × Nat × FS) :=
      if resume then
        match load_progress session fs with
        | .error e => .error e
        | .ok m =>
          match pyGet m "chat_members" with
          | some entry => .ok (entry.processed_items, entry.completed, fs)
          | none => .ok ([], 0, fs)
      else
        match session with
        | none => .error ()
        | some _ =>
          .ok ([], 0, { fs with membersCsv := none, membersJson := none })
    match initE with
    | .error e => .error e
    | .ok init =>
      let stInit : MembersLoopSt := ⟨init.1, init.2.1, 0, init.2.2, tr0⟩
      let stF :=
        allChats.foldl (memberChatStep session source total_chats now) stInit
      match save_progress session stF.fs "chat_members"
          ⟨some stF.completed, some total_chats, some true,
           some stF.processed⟩ now with
      | .error e => .error e
      | .ok fsF => .ok ⟨fsF, stF.total_members, stF.trace⟩

/-! Dictionary lemmas: Python dict assignment versus lookup. -/

theorem pyGet_nil {α : Type} (k : String) :
    pyGet ([] : List (String × α)) k = none := rfl

theorem pyGet_cons {α : Type} (a : String × α) (t : List (String × α)) (k : String) :
    pyGet (a :: t) k = if a.1 = k then some a.2 else pyGet t k := rfl

theorem pyGet_map_set_self {α : Type} (t : List (String × α)) (k : String) (v : α)
    (h : pyHasKey t k = true) :
    pyGet (t.map (fun p => if p.1 = k then (k, v) else p)) k = some v := by
  induction t with
  | nil => simp [pyHasKey] at h
  | cons a t ih =>
    by_cases ha : a.1 = k
    · simp [pyGet_cons, ha]
    · simp only [pyHasKey, ha, if_false] at h
      simp [pyGet_cons, ha, ih h]

theorem pyGet_append_single_self {α : Type} (m : List (String × α)) (k : String) (v : α) :
    pyHasKey m k = false → pyGet (m ++ [(k, v)]) k = some v := by
  induction m with
  | nil => intro _; simp [pyGet_cons]
  | cons a t ih =>
    intro h
    by_cases ha : a.1 = k
    · simp [pyHasKey, ha] at h
    · simp only [pyHasKey, ha, if_false] at h
      simp [pyGet_cons, ha, ih h]

theorem pyGet_pySet_self {α : Type} (m : List (String × α)) (k : String) (v : α) :
    pyGet (pySet m k v) k = some v := by
  by_cases h : pyHasKey m k = true
  · simp only [pySet, h, if_true]
    exact pyGet_map_set_self m k v h
  · simp only [Bool.not_eq_true] at h
    simp only [pySet, h, Bool.false_eq_true, if_false]
    exact pyGet_append_single_self m k v h

theorem pyGet_map_set_ne {α : Type} (t : List (String × α)) (k k' : String) (v : α)
    (h : k' ≠ k) :
    pyGet (t.map (fun p => if p.1 = k then (k, v) else p)) k' = pyGet t k' := by
  induction t with
  | nil => rfl
  | cons a t ih =>
    by_cases ha : a.1 = k
    · have : k ≠ k' := fun hc => h hc.symm
      simp [pyGet_cons, ha, this, ih]
    · simp [pyGet_cons, ha, ih]

theorem pyGet_append_single_ne {α : Type} (m : List (String × α)) (k k' : String) (v : α)
    (h : k' ≠ k) :
    pyGet (m ++ [(k, v)]) k' = pyGet m k' := by
  induction m with
  | nil =>
    have : k ≠ k' := fun hc => h hc.symm
    simp [pyGet_cons, this, pyGet_nil]
  | cons a t ih =>
    by_cases ha : a.1 = k'
    · simp [pyGet_cons, ha]
    · simp [pyGet_cons, ha, ih]

theorem pyGet_pySet_ne {α : Type} (m : List (String × α)) (k k' : String) (v : α)
    (h : k' ≠ k) :
    pyGet (pySet m k v) k' = pyGet m k' := by
  by_cases hany : pyHasKey m k = true
  · simp only [pySet, hany, if_true]
    exact pyGet_map_set_ne m k k' v h
  · simp only [Bool.not_eq_true] at hany
    simp only [pySet, hany, Bool.false_eq_true, if_false]
    exact pyGet_append_single_ne m k k' v h

/-! Sample data used by the concrete witness theorems. -/

/-- A contact whose username matches target `alice` case-insensitively. -/
def sampleContactA : ContactRec := ⟨1, "Ann", "A", "Alice", "+1", false, true⟩

/-- A contact whose username `alice2` must not match target `alice`. -/
def sampleContactB : ContactRec := ⟨2, "Bob", "B", "alice2", "+2", false, true⟩

/-- A third sample contact. -/
def sampleContactC : ContactRec := ⟨3, "Cee", "C", "carol", "+3", true, true⟩

/-- A sample chat member. -/
def sampleMember1 : MemberRec :=
  ⟨10, "G", "group", 100, "X", "", "alice", "", false, false, false⟩

/-- Another sample chat member. -/
def sampleMember2 : MemberRec :=
  ⟨11, "H", "channel", 101, "Y", "", "Bob", "", false, true, false⟩

/-! Claim theorems. -/

/-- C2 counterexample: the claim says `load_progress` never raises, but on
a session whose progress file exists and fails to parse as JSON,
`json.load` raises (modelled as `Except.error`), so the result is not an
empty mapping. -/
theorem c2_counterexample_load_progress_raises :
    load_progress (some "s") { emptyFS with progressFile := some .malformed } =
      Except.error () := rfl

/-- C2 amended: `load_progress` returns an empty mapping when no session
is set or when no persisted progress file exists, and returns the parsed
map when the file parses; but when the persisted file exists and fails to
parse as JSON it raises the parse error instead of failing soft. -/
theorem c2_load_progress_fail_soft_amended (fs : FS) (s : String) :
    load_progress none fs = Except.ok [] ∧
    (fs.progressFile = none → load_progress (some s) fs = Except.ok []) ∧
    (∀ m, fs.progressFile = some (.parsed m) →
      load_progress (some s) fs = Except.ok m) ∧
    (fs.progressFile = some .malformed →
      load_progress (some s) fs = Except.error ()) := by
  refine ⟨rfl, ?_, ?_, ?_⟩
  · intro h; simp [load_progress, h]
  · intro m h; simp [load_progress, h]
  · intro h; simp [load_progress, h]

/-- C2 amended, witness at concrete inputs. -/
theorem c2_load_progress_fail_soft_amended_witness :
    load_progress (some "s") emptyFS = Except.ok [] ∧
    load_progress (some "s") { emptyFS with progressFile := some .malformed } =
      Except.error () :=
  ⟨(c2_load_progress_fail_soft_amended emptyFS "s").2.1 rfl,
   (c2_load_progress_fail_soft_amended
      { emptyFS with progressFile := some .malformed } "s").2.2.2 rfl⟩

/-- C5: the chat-members append writer called with an empty record list is
a no-op: it returns 0 and the whole file system (in particular the tabular
and structured member files) is unchanged. -/
theorem c5_save_chat_members_empty_noop (session : Option String) (fs : FS)
    (append : Bool) :
    save_chat_members_to_files session fs [] append = Except.ok (fs, 0) := rfl

/-- C4: `save_progress` is read-modify-write: whenever the existing
progress file is absent or parseable (i.e. the read yields `m0`), the save
succeeds, an immediate load returns `m0` with exactly the entry for `kind`
replaced by the saved entry, and every other kind's entry is unchanged. -/
theorem c4_save_progress_read_modify_write (s : String) (fs : FS)
    (kind : String) (data : ProgressData) (now : String) (m0 : ProgressMap)
    (h : load_progress (some s) fs = Except.ok m0) :
    ∃ fs', save_progress (some s) fs kind data now = Except.ok fs' ∧
      load_progress (some s) fs' =
        Except.ok (pySet m0 kind (mkEntry now data)) ∧
      pyGet (pySet m0 kind (mkEntry now data)) kind = some (mkEntry now data) ∧
      ∀ k', k' ≠ kind →
        pyGet (pySet m0 kind (mkEntry now data)) k' = pyGet m0 k' := by
  refine ⟨{ fs with progressFile := some (PFile.parsed (pySet m0 kind (mkEntry now data))) },
          ?_, rfl, pyGet_pySet_self m0 kind (mkEntry now data),
          fun k' hk => pyGet_pySet_ne m0 kind k' (mkEntry now data) hk⟩
  simp [save_progress, h]

/-- C4 witness: save kind `contacts` on an empty file system, then load. -/
theorem c4_save_progress_read_modify_write_witness :
    ∃ fs', save_progress (some "s") emptyFS "contacts"
        ⟨some 1, some 2, some false, none⟩ "t" = Except.ok fs' ∧
      load_progress (some "s") fs' =
        Except.ok (pySet [] "contacts"
          (mkEntry "t" ⟨some 1, some 2, some false, none⟩)) ∧
      pyGet (pySet [] "contacts" (mkEntry "t" ⟨some 1, some 2, some false, none⟩))
          "contacts" =
        some (mkEntry "t" ⟨some 1, some 2, some false, none⟩) ∧
      ∀ k', k' ≠ "contacts" →
        pyGet (pySet [] "contacts"
          (mkEntry "t" ⟨some 1, some 2, some false, none⟩)) k' = pyGet [] k' :=
  c4_save_progress_read_modify_write "s" emptyFS "contacts"
    ⟨some 1, some 2, some false, none⟩ "t" [] rfl

/-- The contacts scan is the filter by the exact case-insensitive
candidate condition, mapped to match records. -/
theorem scanContacts_eq_filter (nset : List String) (cs : List ContactRec) :
    scanContacts nset cs =
      (cs.filter
        (fun c => decide (c.username ≠ "" ∧ c.username.toLower ∈ nset))).map
        contactMatchRec := by
  induction cs with
  | nil => rfl
  | cons c rest ih =>
    by_cases h : c.username ≠ "" ∧ c.username.toLower ∈ nset
    · simp [scanContacts, h, ih, List.filter_cons]
    · simp [scanContacts, h, ih, List.filter_cons]

/-- The dialogs scan is the same filter. -/
theorem scanDialogs_eq_filter (nset : List String) (ds : List DialogRec) :
    scanDialogs nset ds =
      (ds.filter
        (fun d => decide (d.username ≠ "" ∧ d.username.toLower ∈ nset))).map
        dialogMatchRec := by
  induction ds with
  | nil => rfl
  | cons d rest ih =>
    by_cases h : d.username ≠ "" ∧ d.username.toLower ∈ nset
    · simp [scanDialogs, h, ih, List.filter_cons]
    · simp [scanDialogs, h, ih, List.filter_cons]

/-- The chat-members scan is the same filter. -/
theorem scanMembers_eq_filter (nset : List String) (ms : List MemberRec) :
    scanMembers nset ms =
      (ms.filter
        (fun m => decide (m.username ≠ "" ∧ m.username.toLower ∈ nset))).map
        memberMatchRec := by
  induction ms with
  | nil => rfl
  | cons m rest ih =>
    by_cases h : m.username ≠ "" ∧ m.username.toLower ∈ nset
    · simp [scanMembers, h, ih, List.filter_cons]
    · simp [scanMembers, h, ih, List.filter_cons]

/-- C7: over each of the three scanned datasets, the matcher emits a match
for a record exactly when the record's username is non-empty and its
lower-cased form is a member of the target set (exact full-handle match,
case-insensitive); in particular `Alice` matches target `alice` while
`alice2` does not, and an empty username is never a candidate. -/
theorem c7_matcher_exact_case_insensitive (nset : List String) :
    (∀ cs : List ContactRec, scanContacts nset cs =
      (cs.filter
        (fun c => decide (c.username ≠ "" ∧ c.username.toLower ∈ nset))).map
        contactMatchRec) ∧
    (∀ ds : List DialogRec, scanDialogs nset ds =
      (ds.filter
        (fun d => decide (d.username ≠ "" ∧ d.username.toLower ∈ nset))).map
        dialogMatchRec) ∧
    (∀ ms : List MemberRec, scanMembers nset ms =
      (ms.filter
        (fun m => decide (m.username ≠ "" ∧ m.username.toLower ∈ nset))).map
        memberMatchRec) :=
  ⟨scanContacts_eq_filter nset, scanDialogs_eq_filter nset,
   scanMembers_eq_filter nset⟩

/-- C6: starting from no member output files, two append-mode writes with
non-empty record lists A then B leave the structured file equal to A ++ B
and the tabular file with exactly one header row followed by A's rows then
B's rows. -/
theorem c6_append_twice (s : String) (fs : FS) (A B : List MemberRec)
    (hA : A ≠ []) (hB : B ≠ []) (hcsv : fs.membersCsv = none)
    (hjson : fs.membersJson = none) :
    ∃ fs1 fs2,
      save_chat_members_to_files (some s) fs A true = Except.ok (fs1, A.length) ∧
      save_chat_members_to_files (some s) fs1 B true = Except.ok (fs2, B.length) ∧
      fs2.membersJson = some (.parsed (A ++ B)) ∧
      fs2.membersCsv =
        some (memberFieldnames :: (A.map memberCsvRow ++ B.map memberCsvRow)) := by
  have hAe : A.isEmpty = false := by
    cases A with
    | nil => exact absurd rfl hA
    | cons a t => rfl
  have hBe : B.isEmpty = false := by
    cases B with
    | nil => exact absurd rfl hB
    | cons b t => rfl
  refine ⟨{ fs with membersCsv := some (memberFieldnames :: A.map memberCsvRow), membersJson := some (.parsed A) },
          { fs with membersCsv := some ((memberFieldnames :: A.map memberCsvRow) ++ B.map memberCsvRow), membersJson := some (.parsed (A ++ B)) },
          ?_, ?_, rfl, rfl⟩
  · simp [save_chat_members_to_files, hAe, hcsv, hjson]
  · simp [save_chat_members_to_files, hBe]

/-- With a session set and a parseable progress file, the checkpoint loop
never raises and touches only the progress file. -/
theorem checkpointLoop_ok (s kind : String) (total : Nat) (now : String) :
    ∀ (items : List Unit) (i : Nat) (fs : FS) (m : ProgressMap),
      fs.progressFile = some (.parsed m) →
      ∃ m', checkpointLoop (some s) kind total now items i fs =
        Except.ok { fs with progressFile := some (PFile.parsed m') } := by
  intro items
  induction items with
  | nil =>
    intro i fs m h
    refine ⟨m, ?_⟩
    rw [← h]
    rfl
  | cons u rest ih =>
    intro i fs m h
    by_cases hc : ((i + 1) % 10 == 0) = true
    · have hsave : save_progress (some s) fs kind
          ⟨some (i + 1), some total, some false, none⟩ now =
          Except.ok { fs with progressFile := some (PFile.parsed (pySet m kind (mkEntry now ⟨some (i + 1), some total, some false, none⟩))) } := by
        simp [save_progress, load_progress, h]
      obtain ⟨m', hm'⟩ := ih (i + 1)
        { fs with progressFile := some (PFile.parsed (pySet m kind (mkEntry now ⟨some (i + 1), some total, some false, none⟩))) }
        (pySet m kind (mkEntry now ⟨some (i + 1), some total, some false, none⟩)) rfl
      refine ⟨m', ?_⟩
      simp only [checkpointLoop, hc, if_true, hsave]
      exact hm'
    · obtain ⟨m', hm'⟩ := ih (i + 1) fs m h
      refine ⟨m', ?_⟩
      simp only [checkpointLoop, hc, if_false]
      exact hm'

/-- C6 witness at concrete singleton record lists. -/
theorem c6_append_twice_witness :
    ∃ fs1 fs2,
      save_chat_members_to_files (some "s") emptyFS [sampleMember1] true =
        Except.ok (fs1, [sampleMember1].length) ∧
      save_chat_members_to_files (some "s") fs1 [sampleMember2] true =
        Except.ok (fs2, [sampleMember2].length) ∧
      fs2.membersJson = some (.parsed ([sampleMember1] ++ [sampleMember2])) ∧
      fs2.membersCsv =
        some (memberFieldnames ::
          ([sampleMember1].map memberCsvRow ++ [sampleMember2].map memberCsvRow)) :=
  c6_append_twice "s" emptyFS [sampleMember1] [sampleMember2]
    (by decide) (by decide) rfl rfl

/-- C3: a resumed contacts (or chats) export with stored completed = k > 0
buffers only positions k.. of the freshly fetched list and full-replace
writes exactly that tail: afterwards the structured file holds only the
tail and the tabular file the header plus the tail's rows (the first k
previously completed items are gone unless refetched identically). -/
theorem c3_resumed_run_writes_only_tail :
    (∀ (s now : String) (fs : FS) (m : ProgressMap) (entry : ProgressEntry)
        (k : Nat) (fetched : List ContactRec),
      fs.progressFile = some (.parsed m) →
      pyGet m "contacts" = some entry → entry.completed = k → 0 < k →
      (export_contacts (some s) fetched fs true now).toOption.map
          (fun r => (r.fs.contactsJson, r.fs.contactsCsv, r.count)) =
        some (some (.parsed (fetched.drop k)),
              some (contactFieldnames :: (fetched.drop k).map contactCsvRow),
              fetched.length)) ∧
    (∀ (s now : String) (fs : FS) (m : ProgressMap) (entry : ProgressEntry)
        (k : Nat) (fetched : List DialogRec),
      fs.progressFile = some (.parsed m) →
      pyGet m "chats" = some entry → entry.completed = k → 0 < k →
      (export_chats (some s) fetched fs true now).toOption.map
          (fun r => (r.fs.dialogsJson, r.fs.chatsCsv, r.count)) =
        some (some (.parsed (fetched.drop k)),
              some (chatFieldnames :: (fetched.drop k).map chatCsvRow),
              fetched.length)) := by
  constructor
  · intro s now fs m entry k fetched hpf hget hcomp hk
    obtain ⟨m1, h1⟩ := checkpointLoop_ok s "contacts" fetched.length now
      (List.replicate (fetched.length - k) ()) k fs m hpf
    simp [export_contacts, hpf, hget, hcomp, h1,
          save_contacts_to_files, save_progress, load_progress]
    exact ⟨_, rfl, rfl, rfl, rfl⟩
  · intro s now fs m entry k fetched hpf hget hcomp hk
    obtain ⟨m1, h1⟩ := checkpointLoop_ok s "chats" fetched.length now
      (List.replicate (fetched.length - k) ()) k fs m hpf
    simp [export_chats, hpf, hget, hcomp, h1,
          save_chats_to_files, save_progress, load_progress]
    exact ⟨_, rfl, rfl, rfl, rfl⟩

/-- The stored progress map used by the C3 witness. -/
def c3map : ProgressMap := [("contacts", ⟨"t0", 1, 3, false, []⟩)]

/-- The pre-run file system of the C3 witness. -/
def c3fs : FS := { emptyFS with progressFile := some (PFile.parsed c3map) }

/-- The fetched contact list of the C3 witness. -/
def c3fetched : List ContactRec := [sampleContactA, sampleContactB, sampleContactC]

/-- C3 witness: three fetched contacts, stored completed = 1: only the
last two are written. -/
theorem c3_resumed_run_writes_only_tail_witness :
    (export_contacts (some "s") c3fetched c3fs true "t1").toOption.map
      (fun r => (r.fs.contactsJson, r.fs.contactsCsv, r.count)) =
    some (some (.parsed (c3fetched.drop 1)),
          some (contactFieldnames :: (c3fetched.drop 1).map contactCsvRow),
          c3fetched.length) :=
  c3_resumed_run_writes_only_tail.1 "s" "t1" c3fs c3map
    ⟨"t0", 1, 3, false, []⟩ 1 c3fetched rfl rfl rfl (by decide)

/-- Stored progress for the C1 scenario: contacts finished, 3 of 3. -/
def c1map : ProgressMap := [("contacts", ⟨"t0", 3, 3, true, []⟩)]

/-- The previously exported contacts of the C1 scenario. -/
def c1prior : List ContactRec := [sampleContactA, sampleContactB, sampleContactC]

/-- The pre-run file system of the C1 scenario: finished progress and the
previously written contact output files. -/
def c1fs : FS := { emptyFS with progressFile := some (PFile.parsed c1map), contactsJson := some (JFile.parsed c1prior), contactsCsv := some (contactFieldnames :: c1prior.map contactCsvRow) }

/-- C1 counterexample: with stored progress `contacts: completed 3, total
3, finished true` and resume requested, the run still performs the contact
fetch (the trace records it) and rewrites the structured contact file to
the empty array, so the previously written output files do not stay
unchanged. -/
theorem c1_counterexample_finished_resume_refetches :
    (export_contacts (some "s") c1prior c1fs true "t1").toOption.map
        (fun r => (r.trace, r.fs.contactsJson)) =
      some ([Event.fetchContacts], some (JFile.parsed [])) ∧
    c1fs.contactsJson = some (JFile.parsed c1prior) ∧
    (some (JFile.parsed c1prior) : Option (JFile ContactRec)) ≠
      some (JFile.parsed []) :=
  ⟨rfl, rfl, by decide⟩

/-- C1 amended: the pipeline has no already-finished check. On resume with
a stored `contacts` entry whose completed equals the fetched total (as
after a finished run), it still fetches the full contact list, processes
the empty remainder, and overwrites the contact output files with the
empty tail: a header-only CSV and an empty JSON array; the run returns
the total and re-saves finished progress. -/
theorem c1_finished_resume_overwrites_with_empty (s now : String) (fs : FS)
    (m : ProgressMap) (entry : ProgressEntry) (fetched : List ContactRec)
    (hpf : fs.progressFile = some (.parsed m))
    (hget : pyGet m "contacts" = some entry)
    (hcomp : entry.completed = fetched.length) :
    (export_contacts (some s) fetched fs true now).toOption.map
        (fun r => (r.trace, r.fs.contactsJson, r.fs.contactsCsv, r.count)) =
      some ([Event.fetchContacts], some (.parsed []), some [contactFieldnames],
            fetched.length) := by
  obtain ⟨m1, h1⟩ := checkpointLoop_ok s "contacts" fetched.length now
    ([] : List Unit) fetched.length fs m hpf
  simp [export_contacts, hpf, hget, hcomp, h1,
        save_contacts_to_files, save_progress, load_progress]
  exact ⟨_, rfl, rfl, rfl, rfl, rfl⟩

/-- C1 amended, witness at the concrete finished-resume scenario. -/
theorem c1_finished_resume_overwrites_with_empty_witness :
    (export_contacts (some "s") c1prior c1fs true "t1").toOption.map
        (fun r => (r.trace, r.fs.contactsJson, r.fs.contactsCsv, r.count)) =
      some ([Event.fetchContacts], some (.parsed []), some [contactFieldnames],
            c1prior.length) :=
  c1_finished_resume_overwrites_with_empty "s" "t1" c1fs c1map
    ⟨"t0", 3, 3, true, []⟩ c1prior rfl rfl rfl

/-- Every input of a successful `mapOrNone` maps to some output element. -/
theorem mapOrNone_mem {α β : Type} (f : α → Option β) :
    ∀ (l : List α) (l' : List β), mapOrNone f l = some l' →
      ∀ a ∈ l, ∃ b, f a = some b ∧ b ∈ l' := by
  intro l
  induction l with
  | nil => intro l' h a ha; simp at ha
  | cons x t ih =>
    intro l' h a ha
    cases hfx : f x with
    | none => simp [mapOrNone, hfx] at h
    | some b =>
      cases hrest : mapOrNone f t with
      | none => simp [mapOrNone, hfx, hrest] at h
      | some bs =>
        simp only [mapOrNone, hfx, hrest] at h
        cases h
        rcases List.mem_cons.mp ha with rfl | hat
        · exact ⟨b, hfx, List.mem_cons_self b bs⟩
        · obtain ⟨b', hb', hmem⟩ := ih bs hrest a hat
          exact ⟨b', hb', List.mem_cons_of_mem b hmem⟩

/-- On a contacts-sourced record the `_save_matches` update forces the
five union-schema fields regardless of their previous values. -/
theorem applySourceDefaults_contacts (r : MatchRec)
    (hsrc : pyGet r "source" = some (.vStr "contacts")) :
    ∃ u, applySourceDefaults r = some u ∧
      pyGet u "is_contact" = some (.vBool true) ∧
      pyGet u "is_premium" = some (.vBool false) ∧
      pyGet u "is_verified" = some (.vBool false) ∧
      pyGet u "last_message_date" = some (.vStr "") ∧
      pyGet u "unread_count" = some (.vInt 0) := by
  refine ⟨pyUpdate r [("last_message_date", .vStr ""), ("unread_count", .vInt 0), ("is_premium", .vBool false), ("is_verified", .vBool false), ("is_contact", .vBool true)], ?_, ?_, ?_, ?_, ?_, ?_⟩
  · simp [applySourceDefaults, hsrc]
  · simp only [pyUpdate, List.foldl]
    exact pyGet_pySet_self ..
  · simp only [pyUpdate, List.foldl]
    rw [pyGet_pySet_ne _ _ _ _ (by decide), pyGet_pySet_ne _ _ _ _ (by decide)]
    exact pyGet_pySet_self ..
  · simp only [pyUpdate, List.foldl]
    rw [pyGet_pySet_ne _ _ _ _ (by decide)]
    exact pyGet_pySet_self ..
  · simp only [pyUpdate, List.foldl]
    rw [pyGet_pySet_ne _ _ _ _ (by decide), pyGet_pySet_ne _ _ _ _ (by decide),
        pyGet_pySet_ne _ _ _ _ (by decide), pyGet_pySet_ne _ _ _ _ (by decide)]
    exact pyGet_pySet_self ..
  · simp only [pyUpdate, List.foldl]
    rw [pyGet_pySet_ne _ _ _ _ (by decide), pyGet_pySet_ne _ _ _ _ (by decide),
        pyGet_pySet_ne _ _ _ _ (by decide)]
    exact pyGet_pySet_self ..

/-- C8: every contacts-sourced match record, as written by the matches
writer to both output files, carries the forced values is_contact = true,
is_premium = false, is_verified = false, last_message_date = "" and
unread_count = 0, whatever the input record held. -/
theorem c8_contacts_matches_forced_fields (s : String) (fs : FS)
    (ms : List MatchRec) (fsr : FS)
    (hrun : save_matches (some s) fs ms = Except.ok fsr) :
    ∃ updated, mapOrNone applySourceDefaults ms = some updated ∧
      fsr.matchesJson = some updated ∧
      fsr.matchesCsv = some (matchFieldnames :: updated.map matchCsvRow) ∧
      ∀ r, r ∈ ms → pyGet r "source" = some (.vStr "contacts") →
        ∃ u, applySourceDefaults r = some u ∧ u ∈ updated ∧
          pyGet u "is_contact" = some (.vBool true) ∧
          pyGet u "is_premium" = some (.vBool false) ∧
          pyGet u "is_verified" = some (.vBool false) ∧
          pyGet u "last_message_date" = some (.vStr "") ∧
          pyGet u "unread_count" = some (.vInt 0) := by
  cases hmap : mapOrNone applySourceDefaults ms with
  | none => simp [save_matches, hmap] at hrun
  | some updated =>
    simp only [save_matches, hmap] at hrun
    cases hrun
    refine ⟨updated, rfl, rfl, rfl, ?_⟩
    intro r hr hsrc
    obtain ⟨u, hu, humem⟩ := mapOrNone_mem applySourceDefaults ms updated hmap r hr
    obtain ⟨u', hu', h1, h2, h3, h4, h5⟩ := applySourceDefaults_contacts r hsrc
    rw [hu] at hu'
    cases hu'
    exact ⟨u, hu, humem, h1, h2, h3, h4, h5⟩

/-- A contacts-sourced input record for the C8 witness, carrying values
the writer must override. -/
def c8rec : MatchRec := [("source", .vStr "contacts"), ("username", .vStr "Alice"), ("matched_nick", .vStr "alice"), ("is_premium", .vBool true), ("last_message_date", .vStr "2020-01-01")]

/-- The record after the writer's per-source update. -/
def c8updated : MatchRec := pyUpdate c8rec [("last_message_date", .vStr ""), ("unread_count", .vInt 0), ("is_premium", .vBool false), ("is_verified", .vBool false), ("is_contact", .vBool true)]

/-- The file system after the C8 witness run. -/
def c8fsAfter : FS := { emptyFS with matchesCsv := some (matchFieldnames :: [c8updated].map matchCsvRow), matchesJson := some [c8updated] }

/-- C8 witness at a concrete contacts-sourced record. -/
theorem c8_contacts_matches_forced_fields_witness :
    ∃ updated, mapOrNone applySourceDefaults [c8rec] = some updated ∧
      c8fsAfter.matchesJson = some updated ∧
      c8fsAfter.matchesCsv = some (matchFieldnames :: updated.map matchCsvRow) ∧
      ∀ r, r ∈ [c8rec] → pyGet r "source" = some (.vStr "contacts") →
        ∃ u, applySourceDefaults r = some u ∧ u ∈ updated ∧
          pyGet u "is_contact" = some (.vBool true) ∧
          pyGet u "is_premium" = some (.vBool false) ∧
          pyGet u "is_verified" = some (.vBool false) ∧
          pyGet u "last_message_date" = some (.vStr "") ∧
          pyGet u "unread_count" = some (.vInt 0) :=
  c8_contacts_matches_forced_fields "s" emptyFS [c8rec] c8fsAfter rfl

/-- C10: whenever the nickname cross-reference returns 0 (no matches,
including an empty or missing targets file), it leaves the entire file
system — in particular the matches output files — untouched. -/
theorem c10_zero_matches_leaves_files_untouched (session : Option String)
    (fs fsr : FS)
    (h : cross_reference_nicknames session fs = Except.ok (fsr, 0)) :
    fsr = fs := by
  unfold cross_reference_nicknames at h
  by_cases h1 : (load_nicknames_list fs).isEmpty = true
  · simp only [h1, if_true] at h
    cases h
    rfl
  · simp only [h1, Bool.false_eq_true, if_false] at h
    by_cases h2 : (check_contacts session fs (load_nicknames_list fs) ++
        check_chats session fs (load_nicknames_list fs) ++
        check_chat_members session fs (load_nicknames_list fs)).isEmpty = true
    · simp only [h2, if_true] at h
      cases h
      rfl
    · simp only [h2, Bool.false_eq_true, if_false] at h
      cases hsave : save_matches session fs
          (check_contacts session fs (load_nicknames_list fs) ++
            check_chats session fs (load_nicknames_list fs) ++
            check_chat_members session fs (load_nicknames_list fs)) with
      | error e => rw [hsave] at h; cases h
      | ok fs1 =>
        rw [hsave] at h
        simp only [Except.ok.injEq, Prod.mk.injEq] at h
        obtain ⟨hfs, hlen⟩ := h
        have hnil : (check_contacts session fs (load_nicknames_list fs) ++
            check_chats session fs (load_nicknames_list fs) ++
            check_chat_members session fs (load_nicknames_list fs)) = [] :=
          List.length_eq_zero.mp hlen
        rw [hnil] at h2
        exact absurd rfl h2

/-- The members a chat contributes to the output: its fetched list on
success, nothing on a raising fetch. -/
def succMembers (source : ChatInfo → Except Unit (List MemberRec))
    (c : ChatInfo) : List MemberRec :=
  match source c with
  | .error _ => []
  | .ok l => l

/-- The member output files hold exactly the records appended so far
(neither file exists while nothing has been written). -/
def MemFiles (fs : FS) (acc : List MemberRec) : Prop :=
  fs.membersJson = (if acc.isEmpty then none else some (.parsed acc)) ∧
  fs.membersCsv =
    (if acc.isEmpty then none
     else some (memberFieldnames :: acc.map memberCsvRow))

/-- The progress file is absent (read as the empty map) or parses to `m`. -/
def PFOk (fs : FS) (m : ProgressMap) : Prop :=
  fs.progressFile = none ∧ m = [] ∨ fs.progressFile = some (PFile.parsed m)

theorem save_progress_of_PFOk (s : String) (fs : FS) (m : ProgressMap)
    (kind : String) (data : ProgressData) (now : String) (h : PFOk fs m) :
    save_progress (some s) fs kind data now =
      Except.ok { fs with progressFile := some (PFile.parsed (pySet m kind (mkEntry now data))) } := by
  rcases h with ⟨h1, rfl⟩ | h1 <;> simp [save_progress, load_progress, h1]

theorem contains_append_one (l : List Int) (x y : Int) :
    (l ++ [x]).contains y = (l.contains y || y == x) := by
  simp [List.contains]
  rfl

/-- One non-skipped iteration of the chat-members loop: the chat id is
appended to processed and the completed count incremented whether or not
the member fetch raises; the member files gain exactly the successfully
fetched records; the progress file stays readable. -/
theorem memberChatStep_eq (s : String)
    (source : ChatInfo → Except Unit (List MemberRec)) (total : Nat)
    (now : String) (st : MembersLoopSt) (c : ChatInfo) (m : ProgressMap)
    (acc : List MemberRec)
    (hpf : PFOk st.fs m)
    (hmf : MemFiles st.fs acc)
    (hpos : acc.isEmpty = false → 0 < st.completed)
    (hskip : st.processed.contains c.chat_id = false) :
    ∃ r, memberChatStep (some s) source total now st c = r ∧
      r.processed = st.processed ++ [c.chat_id] ∧
      r.completed = st.completed + 1 ∧
      r.total_members = st.total_members + (succMembers source c).length ∧
      r.trace = st.trace ++ [Event.fetchMembers c.chat_id] ∧
      ∃ m', PFOk r.fs m' ∧ MemFiles r.fs (acc ++ succMembers source c) := by
  obtain ⟨hj, hcsv⟩ := hmf
  have hskip2 : c.chat_id ∉ st.processed := by simpa using hskip
  cases hsrc : source c with
  | error e =>
    have hstep : memberChatStep (some s) source total now st c =
        ⟨st.processed ++ [c.chat_id], st.completed + 1, st.total_members, st.fs,
         st.trace ++ [Event.fetchMembers c.chat_id]⟩ := by
      simp [memberChatStep, hskip, hskip2, hsrc]
    refine ⟨_, hstep, rfl, rfl, ?_, rfl, m, hpf, ?_⟩
    · simp [succMembers, hsrc]
    · simp only [succMembers, hsrc, List.append_nil]
      exact ⟨hj, hcsv⟩
  | ok members =>
    by_cases hme : members.isEmpty = true
    · have hm0 : members = [] := by simpa [List.isEmpty_iff] using hme
      subst hm0
      have hsave : save_progress (some s) st.fs "chat_members"
          ⟨some (st.completed + 1), some total,
           some (decide (total ≤ st.completed + 1)),
           some (st.processed ++ [c.chat_id])⟩ now =
          Except.ok { st.fs with progressFile := some (PFile.parsed (pySet m "chat_members" (mkEntry now ⟨some (st.completed + 1), some total, some (decide (total ≤ st.completed + 1)), some (st.processed ++ [c.chat_id])⟩))) } :=
        save_progress_of_PFOk s st.fs m "chat_members" _ now hpf
      have hstep : memberChatStep (some s) source total now st c =
          ⟨st.processed ++ [c.chat_id], st.completed + 1, st.total_members,
           { st.fs with progressFile := some (PFile.parsed (pySet m "chat_members" (mkEntry now ⟨some (st.completed + 1), some total, some (decide (total ≤ st.completed + 1)), some (st.processed ++ [c.chat_id])⟩))) },
           st.trace ++ [Event.fetchMembers c.chat_id]⟩ := by
        simp [memberChatStep, hskip, hskip2, hsrc, hsave]
      refine ⟨_, hstep, rfl, rfl, ?_, rfl, pySet m "chat_members" _,
              Or.inr rfl, ?_⟩
      · simp [succMembers, hsrc]
      · simp only [succMembers, hsrc, List.append_nil]
        exact ⟨hj, hcsv⟩
    · have hme' : members.isEmpty = false := by
        simpa using hme
      by_cases hacc : acc.isEmpty = true
      · have hacc0 : acc = [] := by simpa [List.isEmpty_iff] using hacc
        subst hacc0
        simp only [List.isEmpty_nil, if_true] at hj hcsv
        have hsave : save_progress (some s)
            { st.fs with membersCsv := some (memberFieldnames :: members.map memberCsvRow), membersJson := some (JFile.parsed members) }
            "chat_members"
            ⟨some (st.completed + 1), some total,
             some (decide (total ≤ st.completed + 1)),
             some (st.processed ++ [c.chat_id])⟩ now =
            Except.ok { st.fs with membersCsv := some (memberFieldnames :: members.map memberCsvRow), membersJson := some (JFile.parsed members), progressFile := some (PFile.parsed (pySet m "chat_members" (mkEntry now ⟨some (st.completed + 1), some total, some (decide (total ≤ st.completed + 1)), some (st.processed ++ [c.chat_id])⟩))) } := by
          refine save_progress_of_PFOk s _ m "chat_members" _ now ?_
          rcases hpf with ⟨h1, rfl⟩ | h1
          · exact Or.inl ⟨h1, rfl⟩
          · exact Or.inr h1
        have hstep : memberChatStep (some s) source total now st c =
            ⟨st.processed ++ [c.chat_id], st.completed + 1,
             st.total_members + members.length,
             { st.fs with membersCsv := some (memberFieldnames :: members.map memberCsvRow), membersJson := some (JFile.parsed members), progressFile := some (PFile.parsed (pySet m "chat_members" (mkEntry now ⟨some (st.completed + 1), some total, some (decide (total ≤ st.completed + 1)), some (st.processed ++ [c.chat_id])⟩))) },
             st.trace ++ [Event.fetchMembers c.chat_id]⟩ := by
          simp [memberChatStep, hskip, hskip2, hsrc, hme',
                save_chat_members_to_files, hj, hcsv, hsave]
        refine ⟨_, hstep, rfl, rfl, ?_, rfl, pySet m "chat_members" _,
                Or.inr rfl, ?_, ?_⟩
        · simp [succMembers, hsrc]
        · simp [succMembers, hsrc, hme']
        · simp [succMembers, hsrc, hme']
      · have hacc' : acc.isEmpty = false := by simpa using hacc
        have h0 : 0 < st.completed := hpos hacc'
        have hd : decide (0 < st.completed) = true := by simpa using h0
        simp only [hacc', Bool.false_eq_true, if_false] at hj hcsv
        have hne2 : (acc ++ members).isEmpty = false := by
          have : acc ≠ [] := by
            intro h; rw [h] at hacc'; simp at hacc'
          cases acc with
          | nil => exact absurd rfl this
          | cons a t => rfl
        have hsave : save_progress (some s)
            { st.fs with membersCsv := some (memberFieldnames :: (acc.map memberCsvRow ++ members.map memberCsvRow)), membersJson := some (JFile.parsed (acc ++ members)) }
            "chat_members"
            ⟨some (st.completed + 1), some total,
             some (decide (total ≤ st.completed + 1)),
             some (st.processed ++ [c.chat_id])⟩ now =
            Except.ok { st.fs with membersCsv := some (memberFieldnames :: (acc.map memberCsvRow ++ members.map memberCsvRow)), membersJson := some (JFile.parsed (acc ++ members)), progressFile := some (PFile.parsed (pySet m "chat_members" (mkEntry now ⟨some (st.completed + 1), some total, some (decide (total ≤ st.completed + 1)), some (st.processed ++ [c.chat_id])⟩))) } := by
          refine save_progress_of_PFOk s _ m "chat_members" _ now ?_
          rcases hpf with ⟨h1, rfl⟩ | h1
          · exact Or.inl ⟨h1, rfl⟩
          · exact Or.inr h1
        have hstep : memberChatStep (some s) source total now st c =
            ⟨st.processed ++ [c.chat_id], st.completed + 1,
             st.total_members + members.length,
             { st.fs with membersCsv := some (memberFieldnames :: (acc.map memberCsvRow ++ members.map memberCsvRow)), membersJson := some (JFile.parsed (acc ++ members)), progressFile := some (PFile.parsed (pySet m "chat_members" (mkEntry now ⟨some (st.completed + 1), some total, some (decide (total ≤ st.completed + 1)), some (st.processed ++ [c.chat_id])⟩))) },
             st.trace ++ [Event.fetchMembers c.chat_id]⟩ := by
          simp [memberChatStep, hskip, hskip2, hsrc, hme', hd,
                save_chat_members_to_files, hj, hcsv, hsave]
        refine ⟨_, hstep, rfl, rfl, ?_, rfl, pySet m "chat_members" _,
                Or.inr rfl, ?_, ?_⟩
        · simp [succMembers, hsrc]
        · simp [succMembers, hsrc, hne2]
        · simp [succMembers, hsrc, hne2, List.map_append]

/-- Folding the chat-members step over a list of fresh chats with distinct
ids: every chat is attempted exactly once (the trace records it), its id
appended to processed and completed incremented whether its fetch raised
or not, and the member files accumulate exactly the successful fetches. -/
theorem memberFold (s : String)
    (source : ChatInfo → Except Unit (List MemberRec)) (total : Nat)
    (now : String) :
    ∀ (cs : List ChatInfo) (st : MembersLoopSt) (acc : List MemberRec)
      (m : ProgressMap),
      PFOk st.fs m →
      MemFiles st.fs acc →
      (acc.isEmpty = false → 0 < st.completed) →
      (∀ c ∈ cs, st.processed.contains c.chat_id = false) →
      (cs.map (fun c => c.chat_id)).Nodup →
      (cs.foldl (memberChatStep (some s) source total now) st).processed =
          st.processed ++ cs.map (fun c => c.chat_id) ∧
      (cs.foldl (memberChatStep (some s) source total now) st).completed =
          st.completed + cs.length ∧
      (cs.foldl (memberChatStep (some s) source total now) st).total_members =
          st.total_members +
            (cs.map (fun c => (succMembers source c).length)).sum ∧
      (cs.foldl (memberChatStep (some s) source total now) st).trace =
          st.trace ++ cs.map (fun c => Event.fetchMembers c.chat_id) ∧
      ∃ m', PFOk (cs.foldl (memberChatStep (some s) source total now) st).fs m' ∧
        MemFiles (cs.foldl (memberChatStep (some s) source total now) st).fs
          (acc ++ (cs.map (succMembers source)).flatten) := by
  intro cs
  induction cs with
  | nil =>
    intro st acc m hpf hmf hpos hall hnd
    refine ⟨by simp, by simp, by simp, by simp, m, hpf, by simpa using hmf⟩
  | cons c rest ih =>
    intro st acc m hpf hmf hpos hall hnd
    obtain ⟨r, hr, hp, hc, ht, htr, m1, hpf1, hmf1⟩ :=
      memberChatStep_eq s source total now st c m acc hpf hmf hpos
        (hall c (List.mem_cons_self c rest))
    simp only [List.map_cons, List.nodup_cons] at hnd
    obtain ⟨hnotin, hnd'⟩ := hnd
    have hall' : ∀ c' ∈ rest, r.processed.contains c'.chat_id = false := by
      intro c' hc'
      rw [hp, contains_append_one]
      have h1 : st.processed.contains c'.chat_id = false :=
        hall c' (List.mem_cons_of_mem c hc')
      have h2 : (c'.chat_id == c.chat_id) = false := by
        refine beq_eq_false_iff_ne.mpr ?_
        intro he
        exact hnotin (he ▸ List.mem_map_of_mem (fun x => x.chat_id) hc')
      rw [h1, h2]
      rfl
    have hpos' : (acc ++ succMembers source c).isEmpty = false →
        0 < r.completed := by
      intro _
      rw [hc]
      exact Nat.succ_pos _
    obtain ⟨ihp, ihc, iht, ihtr, m2, ihpf, ihmf⟩ :=
      ih r (acc ++ succMembers source c) m1 hpf1 hmf1 hpos' hall' hnd'
    rw [List.foldl_cons, hr]
    refine ⟨?_, ?_, ?_, ?_, m2, ihpf, ?_⟩
    · rw [ihp, hp, List.append_assoc]
      rfl
    · rw [ihc, hc, List.length_cons]
      omega
    · rw [iht, ht]
      simp [Nat.add_assoc]
    · rw [ihtr, htr, List.append_assoc]
      rfl
    · simpa [List.append_assoc] using ihmf

/-- A resumed chat-members loop over chats that are all already in
`processed_items` does nothing: every iteration is skipped. -/
theorem memberFold_skips (s : String)
    (source : ChatInfo → Except Unit (List MemberRec)) (total : Nat)
    (now : String) :
    ∀ (cs : List ChatInfo) (st : MembersLoopSt),
      (∀ c ∈ cs, st.processed.contains c.chat_id = true) →
      cs.foldl (memberChatStep (some s) source total now) st = st := by
  intro cs
  induction cs with
  | nil => intro st _; rfl
  | cons c rest ih =>
    intro st hall
    have hmem : c.chat_id ∈ st.processed := by
      simpa using hall c (List.mem_cons_self c rest)
    have hstep : memberChatStep (some s) source total now st c = st := by
      simp [memberChatStep, hmem]
    rw [List.foldl_cons, hstep]
    exact ih st (fun c' hc' => hall c' (List.mem_cons_of_mem c hc'))

/-- A resumed run whose stored `processed_items` already contains every
chat id fetches no chat's members at all: its trace holds only the group
list fetch. -/
theorem export_chat_members_resume_skips (s now2 : String)
    (chats : List ChatInfo)
    (source2 : ChatInfo → Except Unit (List MemberRec)) (fsF : FS)
    (mF : ProgressMap) (entry : ProgressEntry)
    (hload : load_progress (some s) fsF = Except.ok mF)
    (hget : pyGet mF "chat_members" = some entry)
    (hall : ∀ c ∈ chats, entry.processed_items.contains c.chat_id = true) :
    (export_chat_members (some s) chats source2 fsF true now2).toOption.map
      (fun r => r.trace) = some [Event.fetchGroupChats] := by
  have hpfF : PFOk fsF mF := by
    unfold load_progress at hload
    cases hpf : fsF.progressFile with
    | none =>
      rw [hpf] at hload
      simp only [Except.ok.injEq] at hload
      exact Or.inl ⟨hpf, hload.symm⟩
    | some pf =>
      cases pf with
      | malformed => rw [hpf] at hload; cases hload
      | parsed mm =>
        rw [hpf] at hload
        simp only [Except.ok.injEq] at hload
        rw [hload] at hpf
        exact Or.inr hpf
  cases chats with
  | nil => rfl
  | cons c0 rest =>
    have hfold := memberFold_skips s source2 (c0 :: rest).length now2
      (c0 :: rest)
      ⟨entry.processed_items, entry.completed, 0, fsF, [Event.fetchGroupChats]⟩
      (by intro c hc; exact hall c hc)
    have hsave := save_progress_of_PFOk s fsF mF "chat_members"
      ⟨some entry.completed, some (c0 :: rest).length, some true,
       some entry.processed_items⟩ now2 hpfF
    simp only [List.foldl_cons, List.length_cons] at hfold hsave
    simp [export_chat_members, hload, hget, hfold, hsave]
    exact ⟨_, rfl, rfl⟩

/-- C9: a fresh chat-members run over distinct chats, against an arbitrary
per-chat member source (so in particular one whose fetch raises for some
chat): the failing chat is caught, marked processed and counted; the final
persisted progress has completed = total = the number of chats, finished
true, and processed_items listing every chat id; the member output files
hold exactly the successfully fetched members; and a later resumed run
fetches no chat at all, so the failed chat is never retried. -/
theorem c9_chat_members_failure_handling (s now now2 : String)
    (chats : List ChatInfo)
    (source source2 : ChatInfo → Except Unit (List MemberRec))
    (fs : FS) (m : ProgressMap)
    (hpf : PFOk fs m)
    (hnd : (chats.map (fun c => c.chat_id)).Nodup)
    (hne : chats ≠ []) :
    ∃ fsF mF,
      export_chat_members (some s) chats source fs false now =
        Except.ok ⟨fsF, (chats.map (fun c => (succMembers source c).length)).sum,
                   Event.fetchGroupChats ::
                     chats.map (fun c => Event.fetchMembers c.chat_id)⟩ ∧
      load_progress (some s) fsF = Except.ok mF ∧
      pyGet mF "chat_members" =
        some ⟨now, chats.length, chats.length, true,
              chats.map (fun c => c.chat_id)⟩ ∧
      MemFiles fsF ((chats.map (succMembers source)).flatten) ∧
      (export_chat_members (some s) chats source2 fsF true now2).toOption.map
        (fun r => r.trace) = some [Event.fetchGroupChats] := by
  have hlen : (chats.length == 0) = false := by
    cases chats with
    | nil => exact absurd rfl hne
    | cons a t => rfl
  obtain ⟨hp, hc, ht, htr, m1, hpf1, hmf1⟩ :=
    memberFold s source chats.length now chats
      ⟨[], 0, 0, { fs with membersCsv := none, membersJson := none },
       [Event.fetchGroupChats]⟩
      [] m hpf ⟨rfl, rfl⟩ (by intro h; simp at h) (fun _ _ => rfl) hnd
  set stF := chats.foldl
    (memberChatStep (some s) source chats.length now)
    (⟨[], 0, 0, { fs with membersCsv := none, membersJson := none },
      [Event.fetchGroupChats]⟩ : MembersLoopSt) with hstF
  have hsave := save_progress_of_PFOk s stF.fs m1 "chat_members"
    ⟨some stF.completed, some chats.length, some true, some stF.processed⟩
    now hpf1
  refine ⟨{ stF.fs with progressFile := some (PFile.parsed (pySet m1 "chat_members" (mkEntry now ⟨some stF.completed, some chats.length, some true, some stF.processed⟩))) },
          pySet m1 "chat_members" (mkEntry now ⟨some stF.completed, some chats.length, some true, some stF.processed⟩),
          ?_, ?_, ?_, ?_, ?_⟩
  · simp only [export_chat_members, hlen, Bool.false_eq_true, if_false]
    simp only [← hstF, hsave]
    simp [ht, htr]
  · simp [load_progress]
  · rw [pyGet_pySet_self]
    simp [mkEntry, hc, hp]
  · simpa using hmf1
  · refine export_chat_members_resume_skips s now2 chats source2 _
      (pySet m1 "chat_members" (mkEntry now ⟨some stF.completed, some chats.length, some true, some stF.processed⟩))
      (mkEntry now ⟨some stF.completed, some chats.length, some true, some stF.processed⟩)
      (by simp [load_progress]) (pyGet_pySet_self ..) ?_
    intro c hcmem
    have hin : c.chat_id ∈ chats.map (fun x => x.chat_id) :=
      List.mem_map_of_mem (fun x => x.chat_id) hcmem
    have : (mkEntry now ⟨some stF.completed, some chats.length, some true, some stF.processed⟩).processed_items = chats.map (fun x => x.chat_id) := by
      simp [mkEntry, hp]
    rw [this]
    exact List.elem_eq_true_of_mem hin

/-- Three chats for the C9 witness. -/
def c9chats : List ChatInfo := [⟨1, "a", "group"⟩, ⟨2, "b", "group"⟩, ⟨3, "c", "channel"⟩]

/-- A member source whose fetch raises exactly for chat 2. -/
def c9source : ChatInfo → Except Unit (List MemberRec) := fun c =>
  if c.chat_id = 2 then .error ()
  else .ok [{ sampleMember1 with chat_id := c.chat_id }]

/-- C9 witness: fresh run over 3 chats with chat 2's fetch raising. -/
theorem c9_chat_members_failure_handling_witness :
    ∃ fsF mF,
      export_chat_members (some "s") c9chats c9source emptyFS false "t" =
        Except.ok ⟨fsF,
          (c9chats.map (fun c => (succMembers c9source c).length)).sum,
          Event.fetchGroupChats ::
            c9chats.map (fun c => Event.fetchMembers c.chat_id)⟩ ∧
      load_progress (some "s") fsF = Except.ok mF ∧
      pyGet mF "chat_members" =
        some ⟨"t", c9chats.length, c9chats.length, true,
              c9chats.map (fun c => c.chat_id)⟩ ∧
      MemFiles fsF ((c9chats.map (succMembers c9source)).flatten) ∧
      (export_chat_members (some "s") c9chats c9source fsF true "t2").toOption.map
        (fun r => r.trace) = some [Event.fetchGroupChats] :=
  c9_chat_members_failure_handling "s" "t" "t2" c9chats c9source c9source
    emptyFS [] (Or.inl ⟨rfl, rfl⟩) (by decide) (by decide)

/-- The file system of the C10 witness: a previously written matches file
and no nicknames target file. -/
def c10fs : FS := { emptyFS with matchesJson := some [c8rec], matchesCsv := some [matchFieldnames] }

/-- C10 witness: with the targets file missing, the run returns 0 and the
resulting file system is the input one, prior matches files intact. -/
theorem c10_zero_matches_leaves_files_untouched_witness :
    ∃ g : FS, cross_reference_nicknames (some "s") c10fs = Except.ok (g, 0) ∧
      g = c10fs :=
  ⟨c10fs, rfl, c10_zero_matches_leaves_files_untouched (some "s") c10fs c10fs rfl⟩

end TgExport
